import Mathlib

/-!
Shallow embedding of scripts/generate_test_matrix.py.

The script builds a "cheatsheet": for each language directory under a root
directory and each (category, subcategory) pair of CHEATSHEET_ENTRIES it
resolves a pattern file and a code file (find_path), runs the external
semgrep matcher when both exist (run_semgrep_on_example), and accumulates
entries into a nested mapping language -> feature name -> subcategory name
-> list of entries (generate_cheatsheet).  Renderers turn the mapping into
HTML (cheatsheet_to_html, snippet_and_pattern_to_html) and a coverage
marker is computed by get_emoji.

External collaborators (the filesystem, the semgrep subprocess, the YAML
serializer, the JSON parser, os.path.relpath, json.dumps) are modelled as
fields of an explicit environment record; the script's own logic is
translated directly.  Python strings are Lean strings, Python ints are
Lean Int, a Python value that may be None or a string is Option String,
and sys.exit and uncaught exceptions are modelled with Except.
-/

/-- Whitespace characters removed by Python str.strip (ASCII subset). -/
def isPySpace (c : Char) : Bool :=
  c = ' ' || c = '\t' || c = '\n' || c = '\r' || c = '\x0b' || c = '\x0c'

/-- Python str.strip: remove leading and trailing whitespace. -/
def pyStrip (s : String) : String :=
  String.mk (((s.data.dropWhile isPySpace).reverse.dropWhile isPySpace).reverse)

/-- Length of the Python list s.split over a newline separator:
one more than the number of newline characters in s. -/
def splitNlCount (s : String) : Nat :=
  s.data.count '\n' + 1

/-- First-match lookup in an association list, as Python dict.get(k). -/
def lookupAssoc {α β : Type} [DecidableEq α] : List (α × β) → α → Option β
  | [], _ => none
  | (a, b) :: rest, k => if a = k then some b else lookupAssoc rest k

/-- Update an association list at a key, inserting f d when the key is
absent and replacing the value v by f v when it is present; this is the
mutation pattern of a Python defaultdict d with default value d0:
an access d[k] inserts d0 when absent, then the entry is mutated by f.
New keys go to the end, matching dict insertion order. -/
def updateAssoc {α β : Type} [DecidableEq α] : List (α × β) → α → β → (β → β) → List (α × β)
  | [], k, d, f => [(k, f d)]
  | (a, b) :: rest, k, d, f =>
    if a = k then (a, f b) :: rest else (a, b) :: updateAssoc rest k d f

/-- Python b.startswith of the path separator, on the first character. -/
def startsWithSep (s : String) : Bool := s.data.head? == some '/'

/-- Python path.endswith of the path separator, on the last character. -/
def endsWithSep (s : String) : Bool := s.data.getLast? == some '/'

/-- Behaviour of os.path.join(a, b) on POSIX: an absolute second component
replaces the first; otherwise a separator is inserted unless the first
component is empty or already ends with a separator. -/
def osPathJoin (a b : String) : String :=
  if startsWithSep b then b
  else if a = "" || endsWithSep a then a ++ b
  else a ++ "/" ++ b

/-- VERBOSE_FEATURE_NAME table of the script. -/
def VERBOSE_FEATURE_NAME : List (String × String) :=
  [("dots", "Wildcard Matches (...)"),
   ("equivalence", "Helpful Features"),
   ("metavar", "Named Placeholders ($X)"),
   ("misc", "Others"),
   ("metavar_equality", "Reoccurring Expressions"),
   ("concrete", "Exact Matches"),
   ("regexp", "Regular Expressions"),
   ("deep", "Deep (Recursive) Matching")]

/-- VERBOSE_SUBCATEGORY_NAME table of the script. -/
def VERBOSE_SUBCATEGORY_NAME : List (String × String) :=
  [("stmt", "Statement"),
   ("stmts", "Statements"),
   ("call", "Function Call"),
   ("eq", "Equality Constraints"),
   ("nested_stmts", "Nested Statements"),
   ("cond", "Conditionals"),
   ("arg", "Argument"),
   ("args", "Arguments"),
   ("import", "Imports"),
   ("string", "Strings"),
   ("expr", "Expressions"),
   ("var", "Variables"),
   ("naming_import", "Import Renaming/Aliasing"),
   ("constant_propagation", "Constant Propagation"),
   ("fieldname", "Field Names"),
   ("syntax", "Single Statements"),
   ("exprstmt", "Expression and Statement")]

/-- Caption used for the (regexp, string) pair; named VERBOSE_REGEXP_SYNTAX
in the script. -/
def VERBOSE_REGEXP_CAPTION : String := "OCaml Syntax: \"=~/<regexp>/\""

/-- LANGUAGE_EXCEPTIONS table of the script: per-language list of excluded
feature names or raw subcategory keys. -/
def LANGUAGE_EXCEPTIONS : List (String × List String) :=
  [("java", ["naming_import"]),
   ("c", ["naming_import"]),
   ("ruby", ["naming_import", "typed"]),
   ("python", ["typed"]),
   ("js", ["typed"])]

/-- Directory names excluded from the language scan (EXCLUDE in the script). -/
def EXCLUDE : List String := ["TODO", "POLYGLOT", "e2e", "OTHER"]

/-- CHEATSHEET_ENTRIES table of the script: category to subcategory keys,
in declaration order. -/
def CHEATSHEET_ENTRIES : List (String × List String) :=
  [("concrete", ["syntax"]),
   ("dots", ["args", "string", "stmts", "nested_stmts"]),
   ("metavar", ["call", "arg", "stmt", "cond", "import", "typed"]),
   ("regexp", ["string"]),
   ("metavar_equality", ["expr", "stmt", "var"]),
   ("equivalence", ["naming_import", "constant_propagation"])]

/-- The (category, subcategory) pairs visited by the two nested loops of
generate_cheatsheet, in iteration order. -/
def cheatsheetSlots : List (String × String) :=
  CHEATSHEET_ENTRIES.foldr (fun p acc => p.2.map (fun s => (p.1, s)) ++ acc) []

/-- feature_name computation of generate_cheatsheet:
VERBOSE_FEATURE_NAME.get(category, category). -/
def verboseFeatureName (category : String) : String :=
  (lookupAssoc VERBOSE_FEATURE_NAME category).getD category

/-- subcategory_name computation of generate_cheatsheet, including the
special caption for the (regexp, string) pair. -/
def subcategoryDisplayName (category subcategory : String) : String :=
  if category = "regexp" ∧ subcategory = "string" then VERBOSE_REGEXP_CAPTION
  else (lookupAssoc VERBOSE_SUBCATEGORY_NAME subcategory).getD subcategory

/-- LANGUAGE_EXCEPTIONS.get(lang, []). -/
def languageExceptionList (lang : String) : List String :=
  (lookupAssoc LANGUAGE_EXCEPTIONS lang).getD []

/-- language_exception test of generate_cheatsheet: the verbose feature
name or the raw subcategory key occurs in the language's exception list. -/
def language_exception (lang category subcategory : String) : Bool :=
  (languageExceptionList lang).contains (verboseFeatureName category) ||
    (languageExceptionList lang).contains subcategory

/-- LANG_DIR_TO_EXT.get(lang, lang) of lang_dir_to_ext. -/
def LANG_DIR_TO_EXT : List (String × String) := [("python", "py"), ("ruby", "rb")]

/-- lang_dir_to_ext of the script. -/
def lang_dir_to_ext (lang : String) : String :=
  (lookupAssoc LANG_DIR_TO_EXT lang).getD lang

/-- A position object copied verbatim from the matcher's JSON output. -/
structure Pos where
  line : Int
  col : Int
deriving DecidableEq

/-- One highlight range: the start/end fields of one element of the
results list of the matcher's JSON output. -/
structure Highlight where
  start : Pos
  «end» : Pos
deriving DecidableEq

/-- The entry dict built by generate_cheatsheet for one
(language, category, subcategory) slot. -/
structure Entry where
  pattern : Option String
  pattern_path : String
  code : Option String
  code_path : String
  highlights : List Highlight
deriving DecidableEq

/-- The aggregated document: insertion-ordered nested mappings
language -> feature name -> subcategory name -> list of entries. -/
abbrev Doc := List (String × List (String × List (String × List Entry)))

/-- One element of the patterns list of a rule. -/
structure SgrepPattern where
  pattern : String
deriving DecidableEq

/-- One rule of the generated semgrep configuration. -/
structure Rule where
  id : String
  patterns : List SgrepPattern
  message : String
  languages : List String
  severity : String
deriving DecidableEq

/-- The configuration dict built by _single_pattern_to_dict. -/
structure RuleConfig where
  rules : List Rule
deriving DecidableEq

/-- Result of a finished subprocess.run call. -/
structure SubprocessResult where
  returncode : Int
  stdout : String
  stderr : String
deriving DecidableEq

/-- Abnormal terminations of the script: sys.exit with a code, or an
uncaught exception from json.loads on malformed matcher output. -/
inductive RunError where
  | exit (code : Int)
  | parseFailure
deriving DecidableEq

/-- The external world of the script.  fsExists is os.path.exists,
fsContent the text read by open().read() for an existing path, listdir
and isDir are os.listdir and os.path.isdir, configToString is the YAML
serialization of a configuration, semgrep runs the matcher subprocess on
a serialized configuration and a code path, parseResults is json.loads
composed with extraction of the start/end fields of each element of the
results list (none when the text is not valid JSON of that shape),
relpath is os.path.relpath, and jsonDumps is json.dumps on the document. -/
structure Env where
  fsExists : String → Bool
  fsContent : String → String
  listdir : String → List String
  isDir : String → Bool
  configToString : RuleConfig → String
  semgrep : String → String → SubprocessResult
  parseResults : String → Option (List Highlight)
  relpath : String → String → String
  jsonDumps : Doc → String

/-- find_path of the script: return the language-specific path when it
exists, else the POLYGLOT fallback path, unconditionally. -/
def find_path (env : Env) (root_dir lang category subcategory extension : String) : String :=
  let base_path := osPathJoin (osPathJoin root_dir lang) (category ++ "_" ++ subcategory)
  let joined := base_path ++ "." ++ extension
  if env.fsExists joined then joined
  else
    let generic_base_path := osPathJoin (osPathJoin root_dir "POLYGLOT") (category ++ "_" ++ subcategory)
    generic_base_path ++ "." ++ extension

/-- _single_pattern_to_dict of the script: strip the pattern, append a
newline when the stripped pattern splits into more than one line, and wrap
it into a single-rule configuration for the language.  The script assigns
the pattern field twice with the same value; the second assignment is a
no-op and is not repeated here. -/
def single_pattern_to_dict (pattern : String) (language : String) : RuleConfig :=
  let pattern := pyStrip pattern
  let pattern := if splitNlCount pattern > 1 then pattern ++ "\n" else pattern
  { rules := [{ id := "default-example",
                patterns := [{ pattern := pattern }],
                message := "msg",
                languages := [language],
                severity := "WARNING" }] }

/-- run_semgrep_on_example of the script: read the pattern file, serialize
the configuration, run the matcher; on exit status zero return its stdout,
otherwise sys.exit(1). -/
def run_semgrep_on_example (env : Env) (lang config_arg_str code_path : String) : Except RunError String :=
  let pattern_text := env.fsContent config_arg_str
  let output := env.semgrep (env.configToString (single_pattern_to_dict pattern_text lang)) code_path
  if output.returncode = 0 then .ok output.stdout
  else .error (RunError.exit 1)

/-- read_if_exists of the script: the file's text when the path is truthy
and exists, else None. -/
def read_if_exists (env : Env) (path : String) : Option String :=
  if path ≠ "" ∧ env.fsExists path then some (env.fsContent path) else none

/-- Test guarding the matcher invocation in generate_cheatsheet:
os.path.exists(sgrep_path) and os.path.exists(code_path). -/
def slotBothExist (env : Env) (root_dir lang : String) (cs : String × String) : Bool :=
  env.fsExists (find_path env root_dir lang cs.1 cs.2 "sgrep") &&
    env.fsExists (find_path env root_dir lang cs.1 cs.2 (lang_dir_to_ext lang))

/-- Highlight computation of one loop body of generate_cheatsheet: when
both files exist run the matcher; a falsy (empty) stdout is skipped and
highlights stay empty, otherwise the output is parsed and the start/end
ranges collected; when either file is missing highlights is empty. -/
def slotHighlights (env : Env) (root_dir lang category subcategory : String) : Except RunError (List Highlight) :=
  if slotBothExist env root_dir lang (category, subcategory) then
    match run_semgrep_on_example env lang
        (find_path env root_dir lang category subcategory "sgrep")
        (find_path env root_dir lang category subcategory (lang_dir_to_ext lang)) with
    | .error e => .error e
    | .ok ranges =>
      if ranges = "" then .ok []
      else
        match env.parseResults ranges with
        | some hs => .ok hs
        | none => .error RunError.parseFailure
  else .ok []

/-- The entry dict built by one loop body of generate_cheatsheet. -/
def slotEntry (env : Env) (root_dir lang category subcategory : String) (highlights : List Highlight) : Entry :=
  let sgrep_path := find_path env root_dir lang category subcategory "sgrep"
  let code_path := find_path env root_dir lang category subcategory (lang_dir_to_ext lang)
  { pattern := read_if_exists env sgrep_path,
    pattern_path := env.relpath sgrep_path root_dir,
    code := read_if_exists env code_path,
    code_path := env.relpath code_path root_dir,
    highlights := highlights }

/-- Append one entry at output[lang][feature][subcategory], with the
defaultdict semantics of generate_cheatsheet: missing levels are created
at the end of their mapping. -/
def appendEntry (doc : Doc) (lang feat sub : String) (e : Entry) : Doc :=
  updateAssoc doc lang [] (fun cats =>
    updateAssoc cats feat [] (fun subs =>
      updateAssoc subs sub [] (fun es => es ++ [e])))

/-- One body of the innermost loop of generate_cheatsheet: compute the
highlights, build the entry, and insert it unless the language's exception
list excludes the pair. -/
def processSlot (env : Env) (root_dir lang : String) (cs : String × String) (doc : Doc) : Except RunError Doc :=
  match slotHighlights env root_dir lang cs.1 cs.2 with
  | .error e => .error e
  | .ok highlights =>
    let feature_name := verboseFeatureName cs.1
    let subcategory_name := subcategoryDisplayName cs.1 cs.2
    if language_exception lang cs.1 cs.2 then .ok doc
    else .ok (appendEntry doc lang feature_name subcategory_name
        (slotEntry env root_dir lang cs.1 cs.2 highlights))

/-- Run the category/subcategory loops for one language over a list of
slots, threading the document and propagating sys.exit. -/
def foldSlots (env : Env) (root_dir lang : String) : List (String × String) → Doc → Except RunError Doc
  | [], doc => .ok doc
  | cs :: rest, doc =>
    match processSlot env root_dir lang cs doc with
    | .error e => .error e
    | .ok doc' => foldSlots env root_dir lang rest doc'

/-- Run the language loop of generate_cheatsheet over a list of language
directories. -/
def foldLangs (env : Env) (root_dir : String) : List String → Doc → Except RunError Doc
  | [], doc => .ok doc
  | lang :: rest, doc =>
    match foldSlots env root_dir lang cheatsheetSlots doc with
    | .error e => .error e
    | .ok doc' => foldLangs env root_dir rest doc'

/-- get_language_directories of the script: entries of the root directory
that are directories and are not in EXCLUDE. -/
def get_language_directories (env : Env) (dir_name : String) : List String :=
  (env.listdir dir_name).filter
    (fun f => env.isDir (osPathJoin dir_name f) && !(EXCLUDE.contains f))

/-- generate_cheatsheet of the script. -/
def generate_cheatsheet (env : Env) (root_dir : String) : Except RunError Doc :=
  foldLangs env root_dir (get_language_directories env root_dir) []

/-- Lookup of one key chain in the document. -/
def docFind (doc : Doc) (lang feat sub : String) : Option (List Entry) :=
  match lookupAssoc doc lang with
  | none => none
  | some cats =>
    match lookupAssoc cats feat with
    | none => none
    | some subs => lookupAssoc subs sub

/-- Entry list at one key chain of the document, empty when absent. -/
def docFindList (doc : Doc) (lang feat sub : String) : List Entry :=
  (docFind doc lang feat sub).getD []

/-- The document of a finished run, empty for an aborted run. -/
def runDoc : Except RunError Doc → Doc
  | .ok d => d
  | .error _ => []

/-- Whether a run finished without sys.exit or an uncaught exception. -/
def runOk : Except RunError Doc → Bool
  | .ok _ => true
  | .error _ => false

/-- CSS constant of the script. -/
def CSS : String :=
  "\n.pattern \x7b\n    background-color: #0974d7;\n    color: white;\n    padding: 10px;\n\x7d\n\n.match \x7b\n    background-color: white;\n    padding: 10px;\n    border: 1px solid #0974d7;\n    color: black;\n\x7d\n\n.pair \x7b\n    display: flex;\n    width: 100%;\n    font-family: Consolas, Bitstream Vera Sans Mono, Courier New, Courier, monospace;\n    font-size: 1em;\n\x7d\n\n.example \x7b\n    padding: 10px;\n    margin: 10px;\n    border: 1px solid #ccc;\n\x7d\n\n.examples \x7b\n    display: flex;\n\x7d\n\na \x7b\n    text-decoration: none;\n    color: inherit;\n\x7d\n\npre \x7b\n    margin: 0;\n\x7d\n\n.example-category \x7b\n    width: fit-content;\n    border-top: 1px solid #ddd;\n\x7d\n\n.notimplemented \x7b\n    background-color: yellow;\n\x7d\n\nh3 \x7b\n    margin: 0;\n    margin-bottom: 10px;\n\x7d\n"

/-- Python truthiness of a value that is None or a string. -/
def optTruthy : Option String → Bool
  | none => false
  | some s => s ≠ ""

/-- Python str() rendering used by f-string interpolation of a value that
is None or a string. -/
def pyStr : Option String → String
  | none => "None"
  | some s => s

/-- snippet_and_pattern_to_html of the script.  A falsy pattern renders
nothing; a truthy pattern with at least one truthy snippet renders the
pattern block followed by one match block per snippet; a truthy pattern
with no truthy snippet returns only the notimplemented block. -/
def snippet_and_pattern_to_html (sgrep_pattern : Option String) (sgrep_path : String)
    (code_snippets : List (Option String × String)) : String :=
  if optTruthy sgrep_pattern then
    let s := "<div class=\"pattern\"><a href=\"" ++ sgrep_path ++ "\"><pre>" ++
      pyStr sgrep_pattern ++ "</pre></a></div>"
    if (code_snippets.filter (fun x => optTruthy x.1)).length ≠ 0 then
      let snippets_html := String.join (code_snippets.map (fun sp =>
        "<div class=\"match\"><a href=\"" ++ sp.2 ++ "\"><pre>" ++ pyStr sp.1 ++ "</pre></a></div>"))
      s ++ "<div>" ++ snippets_html ++ "</div>"
    else
      "<div class=\"notimplemented\">This is missing an example!<br/>Or it doesn\x27t work yet for this language!<br/>Edit " ++ sgrep_path ++ "</div>"
  else ""

/-- wrap_in_div of the script. -/
def wrap_in_div (L : List String) (className : String) : String :=
  String.join (L.map (fun i => "<div class=" ++ className ++ ">" ++ i ++ "</div>"))

/-- The by_pattern grouping loop of cheatsheet_to_html.  The script
iterates the entry dicts of a subcategory with a five-variable tuple
unpacking; unpacking a Python dict yields its keys, so for every entry the
variables are bound to the constant key names of the entry dict, in
insertion order: sgrep_pattern is the string "pattern", sgrep_path is
"pattern_path", code_snippet is "code" and code_path is "code_path",
independent of the entry's contents. -/
def groupEntriesByPattern (entries : List Entry) : List ((Option String × String) × List (Option String × String)) :=
  entries.foldl (fun by_pattern _entry =>
    let sgrep_pattern : Option String := some "pattern"
    let sgrep_path : String := "pattern_path"
    let code_snippet : Option String := some "code"
    let code_path : String := "code_path"
    updateAssoc by_pattern (sgrep_pattern, sgrep_path) []
      (fun l => l ++ [(code_snippet, code_path)])) []

/-- Rendering of one subcategory in cheatsheet_to_html: group the entries,
render each group, wrap the results in pair divs and the whole in an
example div headed by the subcategory name. -/
def subcategoryToHtml (subcategory : String) (entries : List Entry) : String :=
  let by_pattern := groupEntriesByPattern entries
  let compiled_examples := by_pattern.map (fun kv =>
    snippet_and_pattern_to_html kv.1.1 kv.1.2 kv.2)
  let html := wrap_in_div compiled_examples "pair"
  "<div class=\"example\"><h3>" ++ subcategory ++ "</h3>" ++ html ++ "</div>"

/-- cheatsheet_to_html of the script. -/
def cheatsheet_to_html (cheatsheet : Doc) : String :=
  "<head><style>" ++ CSS ++ "</style></head><body>" ++
  String.join (cheatsheet.map (fun lc =>
    "<h2>" ++ lc.1 ++ "</h2>" ++
    String.join (lc.2.map (fun cats =>
      let examples := cats.2.map (fun se => subcategoryToHtml se.1 se.2)
      "<div class=\"example-category\"><h2>" ++ cats.1 ++
        "</h2><div class=\"examples\">" ++ String.join examples ++ "</div></div>")))) ++
  "</body>"

/-- get_emoji of the script.  The argument is a Python int. -/
def get_emoji (count : Int) : String :=
  if count = 0 then "🚧"
  else if count < 5 then "🔶"
  else "✅"

/-- Observable outcome of main: the process exit status and the content
written to the output file (none when the run aborted before writing). -/
structure MainRes where
  exitCode : Int
  written : Option String
deriving DecidableEq

/-- main of the script with an output file: generate the cheatsheet, then
serialize it as HTML or JSON and write it.  A sys.exit(1) raised by
run_semgrep_on_example terminates the process with status 1 before
anything is written; an uncaught JSON parse exception also terminates the
process with a nonzero status (Python exits with 1) without writing. -/
def mainRun (env : Env) (directory : String) (html : Bool) : MainRes :=
  match generate_cheatsheet env directory with
  | .error (RunError.exit n) => { exitCode := n, written := none }
  | .error RunError.parseFailure => { exitCode := 1, written := none }
  | .ok doc =>
    { exitCode := 0,
      written := some (if html then cheatsheet_to_html doc else env.jsonDumps doc) }

/-- Sequencing of Except computations, as used between loop iterations. -/
def exceptThen (x : Except RunError Doc) (g : Doc → Except RunError Doc) : Except RunError Doc :=
  match x with
  | .error e => .error e
  | .ok d => g d

/-- Environment of the scenario of section 8 of the spec: the root
directory contains only a python language directory holding
dots_args.py and dots_args.sgrep, and the matcher reports exactly one
match from line 1 column 1 to line 1 column 5. -/
def envPy : Env :=
  { fsExists := fun p => p = "root/python/dots_args.py" || p = "root/python/dots_args.sgrep",
    fsContent := fun p => if p = "root/python/dots_args.sgrep" then "foo(...)" else "foo(1, 2)",
    listdir := fun _ => ["python"],
    isDir := fun p => p = "root/python",
    configToString := fun _ => "cfg",
    semgrep := fun _ _ => { returncode := 0, stdout := "OUT", stderr := "" },
    parseResults := fun s =>
      if s = "OUT" then some [{ start := { line := 1, col := 1 }, «end» := { line := 1, col := 5 } }] else none,
    relpath := fun p _ => p,
    jsonDumps := fun _ => "" }

/-- Environment like envPy whose matcher always exits with status 2. -/
def envFail : Env :=
  { envPy with semgrep := fun _ _ => { returncode := 2, stdout := "", stderr := "boom" } }

/-- Environment like envPy whose matcher exits with status 0 and prints
nothing on stdout. -/
def envPyEmptyOut : Env :=
  { envPy with semgrep := fun _ _ => { returncode := 0, stdout := "", stderr := "" } }

/-- Environment whose root directory contains only an empty ruby language
directory: every file lookup fails. -/
def envRuby : Env :=
  { fsExists := fun _ => false,
    fsContent := fun _ => "",
    listdir := fun _ => ["ruby"],
    isDir := fun p => p = "root/ruby",
    configToString := fun _ => "",
    semgrep := fun _ _ => { returncode := 0, stdout := "", stderr := "" },
    parseResults := fun _ => none,
    relpath := fun p _ => p,
    jsonDumps := fun _ => "" }

/-- A concrete entry with one pattern text, used to exercise the HTML
grouping loop. -/
def entryA : Entry :=
  { pattern := some "foo(...)", pattern_path := "python/p1.sgrep",
    code := some "foo(1)", code_path := "python/c1.py", highlights := [] }

/-- A concrete entry with a different pattern text and path than entryA. -/
def entryB : Entry :=
  { pattern := some "bar($X)", pattern_path := "python/p2.sgrep",
    code := some "bar(2)", code_path := "python/c2.py", highlights := [] }

theorem lookupAssoc_updateAssoc {α β : Type} [DecidableEq α]
    (m : List (α × β)) (k k' : α) (d : β) (f : β → β) :
    lookupAssoc (updateAssoc m k d f) k' =
      if k = k' then some (f ((lookupAssoc m k).getD d)) else lookupAssoc m k' := by
  induction m with
  | nil => by_cases h : k = k' <;> simp [updateAssoc, lookupAssoc, h]
  | cons ab rest ih =>
    obtain ⟨a, b⟩ := ab
    by_cases hak : a = k
    · subst hak
      by_cases hk' : a = k' <;> simp [updateAssoc, lookupAssoc, hk']
    · by_cases hk' : a = k'
      · have hkk' : k ≠ k' := fun h => hak (hk'.trans h.symm)
        simp [updateAssoc, lookupAssoc, hak, hk', hkk', Ne.symm hkk']
      · simp [updateAssoc, lookupAssoc, hak, hk', ih]

theorem docFind_chain (doc : Doc) (lang feat sub : String) :
    docFind doc lang feat sub =
      lookupAssoc ((lookupAssoc ((lookupAssoc doc lang).getD []) feat).getD []) sub := by
  unfold docFind
  cases h1 : lookupAssoc doc lang with
  | none => simp [h1, lookupAssoc]
  | some cats =>
    cases h2 : lookupAssoc cats feat with
    | none => simp [h2, lookupAssoc]
    | some subs => simp [h2]

theorem docFind_appendEntry (doc : Doc) (lang feat sub : String) (e : Entry) (l f s : String) :
    docFind (appendEntry doc lang feat sub e) l f s =
      if lang = l ∧ feat = f ∧ sub = s then some (docFindList doc lang feat sub ++ [e])
      else docFind doc l f s := by
  by_cases hl : lang = l <;> by_cases hf : feat = f <;> by_cases hs : sub = s <;>
    simp [appendEntry, docFind_chain, docFindList, lookupAssoc_updateAssoc, hl, hf, hs]

theorem docFindList_appendEntry (doc : Doc) (lang feat sub : String) (e : Entry) (l f s : String) :
    docFindList (appendEntry doc lang feat sub e) l f s =
      if lang = l ∧ feat = f ∧ sub = s then docFindList doc lang feat sub ++ [e]
      else docFindList doc l f s := by
  unfold docFindList
  rw [docFind_appendEntry]
  split_ifs <;> simp [docFindList]

theorem mem_docFindList_appendEntry (doc : Doc) (lang feat sub : String) (e e' : Entry)
    (l f s : String) (h : e' ∈ docFindList doc l f s) :
    e' ∈ docFindList (appendEntry doc lang feat sub e) l f s := by
  rw [docFindList_appendEntry]
  split_ifs with hk
  · obtain ⟨rfl, rfl, rfl⟩ := hk
    exact List.mem_append_left _ h
  · exact h

theorem exceptThen_ok {x : Except RunError Doc} {g : Doc → Except RunError Doc} {r : Doc}
    (h : exceptThen x g = .ok r) : ∃ d, x = .ok d ∧ g d = .ok r := by
  cases x with
  | error e => simp [exceptThen] at h
  | ok d => exact ⟨d, rfl, h⟩

theorem foldSlots_append (env : Env) (root lang : String) (A B : List (String × String)) (d : Doc) :
    foldSlots env root lang (A ++ B) d =
      exceptThen (foldSlots env root lang A d) (fun d' => foldSlots env root lang B d') := by
  induction A generalizing d with
  | nil => simp [foldSlots, exceptThen]
  | cons a A ih =>
    simp only [List.cons_append, foldSlots]
    cases processSlot env root lang a d with
    | error e => simp [exceptThen]
    | ok d' => simp [ih]

theorem foldLangs_append (env : Env) (root : String) (A B : List String) (d : Doc) :
    foldLangs env root (A ++ B) d =
      exceptThen (foldLangs env root A d) (fun d' => foldLangs env root B d') := by
  induction A generalizing d with
  | nil => simp [foldLangs, exceptThen]
  | cons a A ih =>
    simp only [List.cons_append, foldLangs]
    cases foldSlots env root a cheatsheetSlots d with
    | error e => simp [exceptThen]
    | ok d' => simp [ih]

theorem processSlot_notboth (env : Env) (root lang : String) (cs : String × String)
    (hnb : slotBothExist env root lang cs = false) (d : Doc) :
    processSlot env root lang cs d =
      .ok (if language_exception lang cs.1 cs.2 then d
           else appendEntry d lang (verboseFeatureName cs.1) (subcategoryDisplayName cs.1 cs.2)
             (slotEntry env root lang cs.1 cs.2 [])) := by
  unfold processSlot slotHighlights
  rw [show (cs.1, cs.2) = cs from rfl, hnb]
  simp only [Bool.false_eq_true, if_false]
  split_ifs <;> rfl

theorem processSlot_preserves_mem (env : Env) (root lang : String) (cs : String × String)
    (d d' : Doc) (h : processSlot env root lang cs d = .ok d') (l f s : String) (e : Entry)
    (hmem : e ∈ docFindList d l f s) : e ∈ docFindList d' l f s := by
  unfold processSlot at h
  cases hh : slotHighlights env root lang cs.1 cs.2 with
  | error e0 => rw [hh] at h; simp at h
  | ok hs =>
    rw [hh] at h
    split_ifs at h with hex
    · obtain rfl : d = d' := by simpa using h
      exact hmem
    · obtain rfl : appendEntry d lang (verboseFeatureName cs.1) (subcategoryDisplayName cs.1 cs.2)
          (slotEntry env root lang cs.1 cs.2 hs) = d' := by simpa using h
      exact mem_docFindList_appendEntry _ _ _ _ _ _ _ _ _ hmem

theorem foldSlots_preserves_mem (env : Env) (root lang : String) :
    ∀ (L : List (String × String)) (d d' : Doc), foldSlots env root lang L d = .ok d' →
      ∀ (l f s : String) (e : Entry), e ∈ docFindList d l f s → e ∈ docFindList d' l f s := by
  intro L
  induction L with
  | nil =>
    intro d d' h l f s e hm
    obtain rfl : d = d' := by simpa [foldSlots] using h
    exact hm
  | cons a L ih =>
    intro d d' h l f s e hm
    unfold foldSlots at h
    cases hp : processSlot env root lang a d with
    | error e0 => rw [hp] at h; simp at h
    | ok d1 =>
      rw [hp] at h
      exact ih d1 d' h l f s e (processSlot_preserves_mem env root lang a d d1 hp l f s e hm)

theorem foldLangs_preserves_mem (env : Env) (root : String) :
    ∀ (Ls : List String) (d d' : Doc), foldLangs env root Ls d = .ok d' →
      ∀ (l f s : String) (e : Entry), e ∈ docFindList d l f s → e ∈ docFindList d' l f s := by
  intro Ls
  induction Ls with
  | nil =>
    intro d d' h l f s e hm
    obtain rfl : d = d' := by simpa [foldLangs] using h
    exact hm
  | cons a Ls ih =>
    intro d d' h l f s e hm
    unfold foldLangs at h
    cases hp : foldSlots env root a cheatsheetSlots d with
    | error e0 => rw [hp] at h; simp at h
    | ok d1 =>
      rw [hp] at h
      exact ih d1 d' h l f s e (foldSlots_preserves_mem env root a cheatsheetSlots d d1 hp l f s e hm)

set_option maxHeartbeats 1000000 in
theorem slotNames_inj : ∀ p ∈ cheatsheetSlots, ∀ q ∈ cheatsheetSlots,
    verboseFeatureName p.1 = verboseFeatureName q.1 ∧
      subcategoryDisplayName p.1 p.2 = subcategoryDisplayName q.1 q.2 → p = q := by decide

theorem processSlot_preserves_absent (env : Env) (root lang lang' category subcategory : String)
    (cs' : String × String) (d d' : Doc)
    (hmem : (category, subcategory) ∈ cheatsheetSlots)
    (hmem' : cs' ∈ cheatsheetSlots)
    (hexc : language_exception lang category subcategory = true)
    (hstep : processSlot env root lang' cs' d = .ok d')
    (habs : docFind d lang (verboseFeatureName category) (subcategoryDisplayName category subcategory) = none) :
    docFind d' lang (verboseFeatureName category) (subcategoryDisplayName category subcategory) = none := by
  unfold processSlot at hstep
  cases hh : slotHighlights env root lang' cs'.1 cs'.2 with
  | error e0 => rw [hh] at hstep; simp at hstep
  | ok hs =>
    rw [hh] at hstep
    split_ifs at hstep with hex
    · obtain rfl : d = d' := by simpa using hstep
      exact habs
    · obtain rfl : appendEntry d lang' (verboseFeatureName cs'.1) (subcategoryDisplayName cs'.1 cs'.2)
          (slotEntry env root lang' cs'.1 cs'.2 hs) = d' := by simpa using hstep
      rw [docFind_appendEntry]
      split_ifs with hkey
      · obtain ⟨h1, h2, h3⟩ := hkey
        have hcs : cs' = (category, subcategory) :=
          slotNames_inj cs' hmem' (category, subcategory) hmem ⟨h2, h3⟩
        rw [h1, hcs] at hex
        exact absurd hexc hex
      · exact habs

theorem foldSlots_preserves_absent (env : Env) (root lang lang' category subcategory : String)
    (hmem : (category, subcategory) ∈ cheatsheetSlots)
    (hexc : language_exception lang category subcategory = true) :
    ∀ (L : List (String × String)), (∀ x ∈ L, x ∈ cheatsheetSlots) → ∀ (d d' : Doc),
      foldSlots env root lang' L d = .ok d' →
      docFind d lang (verboseFeatureName category) (subcategoryDisplayName category subcategory) = none →
      docFind d' lang (verboseFeatureName category) (subcategoryDisplayName category subcategory) = none := by
  intro L
  induction L with
  | nil =>
    intro _ d d' h habs
    obtain rfl : d = d' := by simpa [foldSlots] using h
    exact habs
  | cons a L ih =>
    intro hsub d d' h habs
    unfold foldSlots at h
    cases hp : processSlot env root lang' a d with
    | error e0 => rw [hp] at h; simp at h
    | ok d1 =>
      rw [hp] at h
      have ha : a ∈ cheatsheetSlots := hsub a (List.mem_cons_self a L)
      have habs1 := processSlot_preserves_absent env root lang lang' category subcategory a d d1
        hmem ha hexc hp habs
      exact ih (fun x hx => hsub x (List.mem_cons_of_mem a hx)) d1 d' h habs1

theorem foldLangs_preserves_absent (env : Env) (root lang category subcategory : String)
    (hmem : (category, subcategory) ∈ cheatsheetSlots)
    (hexc : language_exception lang category subcategory = true) :
    ∀ (Ls : List String) (d d' : Doc), foldLangs env root Ls d = .ok d' →
      docFind d lang (verboseFeatureName category) (subcategoryDisplayName category subcategory) = none →
      docFind d' lang (verboseFeatureName category) (subcategoryDisplayName category subcategory) = none := by
  intro Ls
  induction Ls with
  | nil =>
    intro d d' h habs
    obtain rfl : d = d' := by simpa [foldLangs] using h
    exact habs
  | cons a Ls ih =>
    intro d d' h habs
    unfold foldLangs at h
    cases hp : foldSlots env root a cheatsheetSlots d with
    | error e0 => rw [hp] at h; simp at h
    | ok d1 =>
      rw [hp] at h
      have habs1 := foldSlots_preserves_absent env root lang a category subcategory hmem hexc
        cheatsheetSlots (fun x hx => hx) d d1 hp habs
      exact ih d1 d' h habs1

theorem run_semgrep_fail (env : Env) (lang config_arg_str code_path : String)
    (h : (env.semgrep (env.configToString (single_pattern_to_dict (env.fsContent config_arg_str) lang))
        code_path).returncode ≠ 0) :
    run_semgrep_on_example env lang config_arg_str code_path = .error (RunError.exit 1) := by
  unfold run_semgrep_on_example
  rw [if_neg h]

theorem run_semgrep_ok (env : Env) (lang config_arg_str code_path : String)
    (h : (env.semgrep (env.configToString (single_pattern_to_dict (env.fsContent config_arg_str) lang))
        code_path).returncode = 0) :
    run_semgrep_on_example env lang config_arg_str code_path =
      .ok (env.semgrep (env.configToString (single_pattern_to_dict (env.fsContent config_arg_str) lang))
        code_path).stdout := by
  unfold run_semgrep_on_example
  rw [if_pos h]

theorem processSlot_fail (env : Env) (root lang : String) (cs : String × String)
    (hAll : ∀ config codePath, (env.semgrep config codePath).returncode ≠ 0)
    (hB : slotBothExist env root lang cs = true) (d : Doc) :
    processSlot env root lang cs d = .error (RunError.exit 1) := by
  unfold processSlot slotHighlights
  rw [show (cs.1, cs.2) = cs from rfl, hB]
  rw [run_semgrep_fail env lang _ _ (hAll _ _)]
  rfl

theorem foldSlots_fail (env : Env) (root lang : String)
    (hAll : ∀ config codePath, (env.semgrep config codePath).returncode ≠ 0) :
    ∀ (L : List (String × String)) (d : Doc),
      (∃ cs ∈ L, slotBothExist env root lang cs = true) →
      foldSlots env root lang L d = .error (RunError.exit 1) := by
  intro L
  induction L with
  | nil => rintro d ⟨cs, hcs, _⟩; simp at hcs
  | cons a L ih =>
    rintro d ⟨cs, hcs, hB⟩
    unfold foldSlots
    by_cases ha : slotBothExist env root lang a = true
    · rw [processSlot_fail env root lang a hAll ha d]
    · rw [processSlot_notboth env root lang a (by simpa using ha) d]
      apply ih
      rcases List.mem_cons.mp hcs with rfl | hmem
      · exact absurd hB ha
      · exact ⟨cs, hmem, hB⟩

theorem foldSlots_ok_all_notboth (env : Env) (root lang : String) :
    ∀ (L : List (String × String)), (∀ cs ∈ L, slotBothExist env root lang cs = false) →
      ∀ (d : Doc), ∃ d', foldSlots env root lang L d = .ok d' := by
  intro L
  induction L with
  | nil => intro _ d; exact ⟨d, rfl⟩
  | cons a L ih =>
    intro hall d
    unfold foldSlots
    rw [processSlot_notboth env root lang a (hall a (List.mem_cons_self a L)) d]
    exact ih (fun x hx => hall x (List.mem_cons_of_mem a hx)) _

theorem foldLangs_fail (env : Env) (root : String)
    (hAll : ∀ config codePath, (env.semgrep config codePath).returncode ≠ 0) :
    ∀ (Ls : List String) (d : Doc),
      (∃ lg ∈ Ls, ∃ cs ∈ cheatsheetSlots, slotBothExist env root lg cs = true) →
      foldLangs env root Ls d = .error (RunError.exit 1) := by
  intro Ls
  induction Ls with
  | nil => rintro d ⟨lg, hlg, _⟩; simp at hlg
  | cons a Ls ih =>
    rintro d ⟨lg, hlg, hcs⟩
    unfold foldLangs
    by_cases hq : ∃ cs ∈ cheatsheetSlots, slotBothExist env root a cs = true
    · rw [foldSlots_fail env root a hAll cheatsheetSlots d hq]
    · push_neg at hq
      have hall : ∀ cs ∈ cheatsheetSlots, slotBothExist env root a cs = false :=
        fun cs h => by simpa using hq cs h
      obtain ⟨d', hd'⟩ := foldSlots_ok_all_notboth env root a cheatsheetSlots hall d
      rw [hd']
      apply ih
      rcases List.mem_cons.mp hlg with rfl | hmem
      · obtain ⟨cs, h1, h2⟩ := hcs
        exact absurd h2 (by simp [hall cs h1])
      · exact ⟨lg, hmem, hcs⟩

theorem head_dropWhile_not (f : Char → Bool) :
    ∀ (l : List Char) (c : Char), (l.dropWhile f).head? = some c → f c = false := by
  intro l
  induction l with
  | nil => intro c h; simp [List.dropWhile] at h
  | cons a t ih =>
    intro c h
    rw [List.dropWhile_cons] at h
    by_cases hfa : f a
    · rw [if_pos hfa] at h; exact ih c h
    · rw [if_neg hfa] at h
      simp at h
      rw [← h]
      simpa using hfa

theorem pyStrip_getLast_not_space (s : String) (c : Char)
    (h : (pyStrip s).data.getLast? = some c) : isPySpace c = false := by
  unfold pyStrip at h
  rw [show (String.mk (((s.data.dropWhile isPySpace).reverse.dropWhile isPySpace).reverse)).data
      = ((s.data.dropWhile isPySpace).reverse.dropWhile isPySpace).reverse from rfl] at h
  rw [List.getLast?_reverse] at h
  exact head_dropWhile_not isPySpace _ c h

/-- C1: find_path returns the language-specific path
root/language/category_subcategory.extension exactly when that file
exists on the filesystem, and otherwise returns the POLYGLOT fallback
path root/POLYGLOT/category_subcategory.extension unconditionally, with
no existence check on the fallback. -/
theorem c1_path_resolver (env : Env) (root_dir lang category subcategory extension : String) :
    (env.fsExists (osPathJoin (osPathJoin root_dir lang) (category ++ "_" ++ subcategory) ++ "." ++ extension) = true →
      find_path env root_dir lang category subcategory extension =
        osPathJoin (osPathJoin root_dir lang) (category ++ "_" ++ subcategory) ++ "." ++ extension) ∧
    (env.fsExists (osPathJoin (osPathJoin root_dir lang) (category ++ "_" ++ subcategory) ++ "." ++ extension) = false →
      find_path env root_dir lang category subcategory extension =
        osPathJoin (osPathJoin root_dir "POLYGLOT") (category ++ "_" ++ subcategory) ++ "." ++ extension) := by
  constructor <;> intro h <;> simp [find_path, h]

/-- Witness for C1: in an environment whose filesystem is empty the
resolver returns the POLYGLOT fallback path even though that fallback
path does not exist either. -/
theorem c1_path_resolver_witness :
    find_path envRuby "tests" "ruby" "dots" "args" "sgrep" = "tests/POLYGLOT/dots_args.sgrep" ∧
    envRuby.fsExists "tests/POLYGLOT/dots_args.sgrep" = false := by
  constructor
  · exact ((c1_path_resolver envRuby "tests" "ruby" "dots" "args" "sgrep").2 (by decide)).trans (by decide)
  · decide

/-- C5 counterexample: the tier function applied to the integer -1
returns the partial marker although -1 is not in [1, 5), so the claimed
equivalence fails for arbitrary integers. -/
theorem c5_negative_count_counterexample :
    ¬(get_emoji (-1) = "🔶" ↔ (1 ≤ (-1 : Int) ∧ (-1 : Int) < 5)) := by decide

/-- C5 (amended to non-negative counts, the values produced by the file
counter): get_emoji returns the missing marker iff the count is 0, the
partial marker iff the count is in [1, 5), and the complete marker iff
the count is at least 5. -/
theorem c5_tier_boundaries (count : Int) (h : 0 ≤ count) :
    (get_emoji count = "🚧" ↔ count = 0) ∧
    (get_emoji count = "🔶" ↔ (1 ≤ count ∧ count < 5)) ∧
    (get_emoji count = "✅" ↔ 5 ≤ count) := by
  unfold get_emoji
  split_ifs with h0 h5
  · exact ⟨⟨fun _ => h0, fun _ => rfl⟩,
      ⟨fun hh => absurd hh (by decide), fun hh => absurd hh (by omega)⟩,
      ⟨fun hh => absurd hh (by decide), fun hh => absurd hh (by omega)⟩⟩
  · exact ⟨⟨fun hh => absurd hh (by decide), fun hh => absurd hh h0⟩,
      ⟨fun _ => by omega, fun _ => rfl⟩,
      ⟨fun hh => absurd hh (by decide), fun hh => absurd hh (by omega)⟩⟩
  · exact ⟨⟨fun hh => absurd hh (by decide), fun hh => absurd hh h0⟩,
      ⟨fun hh => absurd hh (by decide), fun hh => absurd hh (by omega)⟩,
      ⟨fun _ => by omega, fun _ => rfl⟩⟩

/-- Witness for C5: the amended theorem applied at counts 4 and 5, giving
the partial marker at 4 and the complete marker at 5. -/
theorem c5_tier_boundaries_witness :
    ((get_emoji 4 = "🚧" ↔ (4 : Int) = 0) ∧
     (get_emoji 4 = "🔶" ↔ (1 ≤ (4 : Int) ∧ (4 : Int) < 5)) ∧
     (get_emoji 4 = "✅" ↔ 5 ≤ (4 : Int))) ∧
    ((get_emoji 5 = "🚧" ↔ (5 : Int) = 0) ∧
     (get_emoji 5 = "🔶" ↔ (1 ≤ (5 : Int) ∧ (5 : Int) < 5)) ∧
     (get_emoji 5 = "✅" ↔ 5 ≤ (5 : Int))) :=
  ⟨c5_tier_boundaries 4 (by decide), c5_tier_boundaries 5 (by decide)⟩

/-- C6: a group with an absent or empty pattern text renders the empty
string; a group with a non-empty pattern text none of whose code snippets
is non-empty renders the distinguishable notimplemented placeholder block
naming the expected pattern file path instead of a snippet block. -/
theorem c6_empty_states (sgrep_pattern : Option String) (sgrep_path : String)
    (code_snippets : List (Option String × String)) :
    ((sgrep_pattern = none ∨ sgrep_pattern = some "") →
      snippet_and_pattern_to_html sgrep_pattern sgrep_path code_snippets = "") ∧
    ((∃ p, sgrep_pattern = some p ∧ p ≠ "") →
      (∀ x ∈ code_snippets, x.1 = none ∨ x.1 = some "") →
      snippet_and_pattern_to_html sgrep_pattern sgrep_path code_snippets =
        "<div class=\"notimplemented\">This is missing an example!<br/>Or it doesn\x27t work yet for this language!<br/>Edit " ++ sgrep_path ++ "</div>") := by
  constructor
  · rintro (rfl | rfl) <;> simp [snippet_and_pattern_to_html, optTruthy]
  · rintro ⟨p, rfl, hp⟩ hall
    have ht : optTruthy (some p) = true := by simp [optTruthy, hp]
    unfold snippet_and_pattern_to_html
    rw [if_pos ht]
    have hfilter : code_snippets.filter (fun x => optTruthy x.1) = [] := by
      rw [List.filter_eq_nil_iff]
      intro x hx
      rcases hall x hx with h | h <;> simp [optTruthy, h]
    rw [hfilter]
    simp

/-- Witness for C6: an absent pattern renders nothing, and a concrete
non-empty pattern whose snippets are all empty or absent renders the
placeholder block naming the pattern path. -/
theorem c6_empty_states_witness :
    snippet_and_pattern_to_html none "a/b.sgrep" [] = "" ∧
    snippet_and_pattern_to_html (some "$X == $X") "a/b.sgrep" [(some "", "c.py"), (none, "d.py")] =
      "<div class=\"notimplemented\">This is missing an example!<br/>Or it doesn\x27t work yet for this language!<br/>Edit a/b.sgrep</div>" := by
  constructor
  · exact (c6_empty_states none "a/b.sgrep" []).1 (Or.inl rfl)
  · exact ((c6_empty_states (some "$X == $X") "a/b.sgrep" [(some "", "c.py"), (none, "d.py")]).2
      ⟨"$X == $X", rfl, by decide⟩ (by decide)).trans (by decide)

/-- C9 counterexample: the adapter strips the pattern before embedding
it, so for the single-line pattern text " foo" the embedded pattern is
"foo", which is neither the raw text nor the raw text with a newline
appended, refuting the claim that the raw pattern is embedded with at
most a trailing newline added. -/
theorem c9_strip_counterexample :
    (single_pattern_to_dict " foo" "python").rules.map (fun r => r.patterns.map (fun p => p.pattern)) = [["foo"]] ∧
    "foo" ≠ " foo" ∧ "foo" ≠ " foo" ++ "\n" ∧ splitNlCount " foo" = 1 := by decide

/-- C9 (amended: the pattern text is first stripped of surrounding
whitespace and the multi-line test applies to the stripped text): the
configuration holds a single rule scoped to the given language whose
pattern is the stripped text, with a trailing newline appended exactly
when the stripped text spans more than one line; consequently the
embedded pattern ends in a newline iff the stripped pattern is
multi-line. -/
theorem c9_newline_amended (raw language : String) :
    single_pattern_to_dict raw language =
      { rules := [{ id := "default-example",
                    patterns := [{ pattern :=
                      if splitNlCount (pyStrip raw) > 1 then pyStrip raw ++ "\n" else pyStrip raw }],
                    message := "msg",
                    languages := [language],
                    severity := "WARNING" }] } ∧
    ((if splitNlCount (pyStrip raw) > 1 then pyStrip raw ++ "\n" else pyStrip raw).data.getLast? = some '\n'
      ↔ splitNlCount (pyStrip raw) > 1) := by
  constructor
  · rfl
  · by_cases hml : splitNlCount (pyStrip raw) > 1
    · rw [if_pos hml]
      constructor
      · intro _; exact hml
      · intro _
        rw [show (pyStrip raw ++ "\n").data = (pyStrip raw).data ++ ['\n'] from rfl]
        exact List.getLast?_concat _
    · rw [if_neg hml]
      constructor
      · intro h
        exact absurd (pyStrip_getLast_not_space raw '\n' h) (by decide)
      · intro h; exact absurd h hml

set_option maxRecDepth 100000 in
/-- C3: evaluation of the HTML grouping loop at two entries with distinct
pattern texts and paths.  Because the loop tuple-unpacks the entry dicts,
which yields the dict keys, both entries land in the single group keyed
by the literal strings ("pattern", "pattern_path"), the key built from
the entries' actual pattern text is absent, and the rendered block shows
the literal text pattern instead of either entry's pattern. -/
theorem c3_grouping_bug_eval :
    groupEntriesByPattern [entryA, entryB] =
      [((some "pattern", "pattern_path"), [(some "code", "code_path"), (some "code", "code_path")])] ∧
    lookupAssoc (groupEntriesByPattern [entryA, entryB]) (some "foo(...)", "python/p1.sgrep") = none ∧
    subcategoryToHtml "Arguments" [entryA, entryB] =
      "<div class=\"example\"><h3>Arguments</h3><div class=pair><div class=\"pattern\"><a href=\"pattern_path\"><pre>pattern</pre></a></div><div><div class=\"match\"><a href=\"code_path\"><pre>code</pre></a></div><div class=\"match\"><a href=\"code_path\"><pre>code</pre></a></div></div></div></div>" := by
  decide

set_option maxRecDepth 100000 in
/-- C8 counterexample: in the spec's concrete scenario (python/dots_args
pattern and code files, one match from 1:1 to 1:5) the aggregation
finishes, but there is no key (python, Wildcard Matches (...), Argument):
the dots_args slot is filed under the plural subcategory name. -/
theorem c8_subcategory_name_counterexample :
    runOk (generate_cheatsheet envPy "root") = true ∧
    docFind (runDoc (generate_cheatsheet envPy "root")) "python" "Wildcard Matches (...)" "Argument" = none := by
  decide

set_option maxRecDepth 100000 in
/-- C8 (amended: the subcategory name is "Arguments", the verbose name of
the raw key args): the scenario yields exactly one entry under
(python, Wildcard Matches (...), Arguments) and its highlights hold
exactly the one range from line 1 col 1 to line 1 col 5. -/
theorem c8_scenario_amended :
    (docFind (runDoc (generate_cheatsheet envPy "root")) "python" "Wildcard Matches (...)" "Arguments").map
        (fun l => (l.length, l.map Entry.highlights)) =
      some (1, [[{ start := { line := 1, col := 1 }, «end» := { line := 1, col := 5 } }]]) ∧
    runOk (generate_cheatsheet envPy "root") = true := by
  decide

/-- C2: for every language directory and every (category, subcategory)
pair of the documented enumeration, when the language's exception list
contains the verbose feature name or the raw subcategory key the entry
is never inserted, so the (language, feature name, subcategory name) key
is absent from the aggregated document of a finished run. -/
theorem c2_exclusion_never_inserted (env : Env) (root lang category subcategory : String) (doc : Doc)
    (hmem : (category, subcategory) ∈ cheatsheetSlots)
    (hexc : language_exception lang category subcategory = true)
    (hok : generate_cheatsheet env root = .ok doc) :
    docFind doc lang (verboseFeatureName category) (subcategoryDisplayName category subcategory) = none := by
  unfold generate_cheatsheet at hok
  exact foldLangs_preserves_absent env root lang category subcategory hmem hexc
    (get_language_directories env root) [] doc hok rfl

/-- Witness for C2: a run over a root holding one empty ruby directory
finishes, and the key (ruby, Helpful Features, Import Renaming/Aliasing)
is absent because naming_import is in the ruby exception list. -/
theorem c2_exclusion_witness :
    docFind (runDoc (generate_cheatsheet envRuby "root")) "ruby" "Helpful Features" "Import Renaming/Aliasing" = none := by
  have hOk : runOk (generate_cheatsheet envRuby "root") = true := by decide
  cases hE : generate_cheatsheet envRuby "root" with
  | error e => rw [hE] at hOk; simp [runOk] at hOk
  | ok d =>
    exact c2_exclusion_never_inserted envRuby "root" "ruby" "equivalence" "naming_import" d
      (by decide) (by decide) hE

/-- C4: a matcher invocation with non-zero exit status makes the adapter
call sys.exit(1), with no retry and no per-entry skip; one with exit
status zero returns its stdout for parsing; and when the matcher fails
and some slot actually invokes it, the whole run aborts with exit status
1 and main writes no output. -/
theorem c4_matcher_failure_fatal (env : Env) (root : String) (html : Bool) :
    (∀ lang config_arg_str code_path,
      (env.semgrep (env.configToString (single_pattern_to_dict (env.fsContent config_arg_str) lang))
          code_path).returncode ≠ 0 →
      run_semgrep_on_example env lang config_arg_str code_path = .error (RunError.exit 1)) ∧
    (∀ lang config_arg_str code_path,
      (env.semgrep (env.configToString (single_pattern_to_dict (env.fsContent config_arg_str) lang))
          code_path).returncode = 0 →
      run_semgrep_on_example env lang config_arg_str code_path =
        .ok (env.semgrep (env.configToString (single_pattern_to_dict (env.fsContent config_arg_str) lang))
          code_path).stdout) ∧
    ((∀ config codePath, (env.semgrep config codePath).returncode ≠ 0) →
      (∃ lg ∈ get_language_directories env root, ∃ cs ∈ cheatsheetSlots,
        slotBothExist env root lg cs = true) →
      generate_cheatsheet env root = .error (RunError.exit 1) ∧
        mainRun env root html = { exitCode := 1, written := none }) := by
  refine ⟨run_semgrep_fail env, run_semgrep_ok env, fun hAll hEx => ?_⟩
  have hgen : generate_cheatsheet env root = .error (RunError.exit 1) := by
    unfold generate_cheatsheet
    exact foldLangs_fail env root hAll _ [] hEx
  refine ⟨hgen, ?_⟩
  unfold mainRun
  rw [hgen]

/-- Witness for C4: in an environment whose matcher always exits with
status 2 and whose python directory holds the dots_args example files,
the aggregation aborts with sys.exit(1) and main writes nothing. -/
theorem c4_matcher_failure_witness :
    generate_cheatsheet envFail "root" = .error (RunError.exit 1) ∧
    mainRun envFail "root" true = { exitCode := 1, written := none } := by
  refine (c4_matcher_failure_fatal envFail "root" true).2.2 ?_ ?_
  · intro config codePath
    show (2 : Int) ≠ 0
    decide
  · exact ⟨"python", by decide, ("dots", "args"), by decide, by decide⟩

/-- C7: for a slot whose resolved pattern or code file is missing, the
loop body never fails and still builds the entry with empty highlights;
each missing file's text field is None; and unless the pair is excluded
the entry is inserted and appears in the finished document. -/
theorem c7_missing_assets_recovered (env : Env) (root lang category subcategory : String) (doc : Doc)
    (hmem : (category, subcategory) ∈ cheatsheetSlots)
    (hlang : lang ∈ get_language_directories env root)
    (hmiss : ¬(env.fsExists (find_path env root lang category subcategory "sgrep") = true ∧
      env.fsExists (find_path env root lang category subcategory (lang_dir_to_ext lang)) = true))
    (hok : generate_cheatsheet env root = .ok doc) :
    (∀ d, processSlot env root lang (category, subcategory) d =
      .ok (if language_exception lang category subcategory then d
           else appendEntry d lang (verboseFeatureName category) (subcategoryDisplayName category subcategory)
             (slotEntry env root lang category subcategory []))) ∧
    (env.fsExists (find_path env root lang category subcategory "sgrep") = false →
      (slotEntry env root lang category subcategory []).pattern = none) ∧
    (env.fsExists (find_path env root lang category subcategory (lang_dir_to_ext lang)) = false →
      (slotEntry env root lang category subcategory []).code = none) ∧
    (language_exception lang category subcategory = false →
      slotEntry env root lang category subcategory [] ∈
        docFindList doc lang (verboseFeatureName category) (subcategoryDisplayName category subcategory)) := by
  have hnb : slotBothExist env root lang (category, subcategory) = false := by
    rw [Bool.eq_false_iff]
    intro hB
    exact hmiss (by simpa [slotBothExist, Bool.and_eq_true] using hB)
  refine ⟨fun d => processSlot_notboth env root lang (category, subcategory) hnb d, ?_, ?_, ?_⟩
  · intro h
    simp [slotEntry, read_if_exists, h]
  · intro h
    simp [slotEntry, read_if_exists, h]
  · intro hexcl
    obtain ⟨S, T, hLT⟩ := List.append_of_mem hlang
    unfold generate_cheatsheet at hok
    rw [hLT, foldLangs_append] at hok
    obtain ⟨d1, hS, hrest⟩ := exceptThen_ok hok
    unfold foldLangs at hrest
    cases hF : foldSlots env root lang cheatsheetSlots d1 with
    | error e0 => rw [hF] at hrest; simp at hrest
    | ok d2 =>
      rw [hF] at hrest
      obtain ⟨A, B, hAB⟩ := List.append_of_mem hmem
      rw [hAB, foldSlots_append] at hF
      obtain ⟨m1, hA, hcons⟩ := exceptThen_ok hF
      unfold foldSlots at hcons
      cases hP : processSlot env root lang (category, subcategory) m1 with
      | error e0 => rw [hP] at hcons; simp at hcons
      | ok m2 =>
        rw [hP] at hcons
        rw [processSlot_notboth env root lang (category, subcategory) hnb m1] at hP
        simp only [hexcl, Bool.false_eq_true, if_false] at hP
        have hm2 : m2 = appendEntry m1 lang (verboseFeatureName category)
            (subcategoryDisplayName category subcategory)
            (slotEntry env root lang category subcategory []) := by
          simpa using hP.symm
        have hmemEntry : slotEntry env root lang category subcategory [] ∈
            docFindList m2 lang (verboseFeatureName category) (subcategoryDisplayName category subcategory) := by
          rw [hm2, docFindList_appendEntry, if_pos ⟨rfl, rfl, rfl⟩]
          exact List.mem_append_right _ (List.mem_singleton_self _)
        exact foldLangs_preserves_mem env root T d2 doc hrest _ _ _ _
          (foldSlots_preserves_mem env root lang B m2 d2 hcons _ _ _ _ hmemEntry)

/-- Witness for C7: in a run over a root holding one empty ruby
directory, the dots/args slot has neither file, and the entry with
absent texts and empty highlights appears in the finished document under
(ruby, Wildcard Matches (...), Arguments). -/
theorem c7_missing_assets_witness :
    slotEntry envRuby "root" "ruby" "dots" "args" [] ∈
      docFindList (runDoc (generate_cheatsheet envRuby "root")) "ruby" "Wildcard Matches (...)" "Arguments" := by
  have hOk : runOk (generate_cheatsheet envRuby "root") = true := by decide
  cases hE : generate_cheatsheet envRuby "root" with
  | error e => rw [hE] at hOk; simp [runOk] at hOk
  | ok d =>
    exact (c7_missing_assets_recovered envRuby "root" "ruby" "dots" "args" d
      (by decide) (by decide) (by decide) hE).2.2.2 (by decide)

theorem processSlot_empty_output (env : Env) (root lang : String) (cs : String × String)
    (pf : String → Option (List Highlight)) (d : Doc)
    (hB : slotBothExist env root lang cs = true)
    (hrun : run_semgrep_on_example env lang (find_path env root lang cs.1 cs.2 "sgrep")
        (find_path env root lang cs.1 cs.2 (lang_dir_to_ext lang)) = .ok "") :
    processSlot { env with parseResults := pf } root lang cs d =
      .ok (if language_exception lang cs.1 cs.2 then d
           else appendEntry d lang (verboseFeatureName cs.1) (subcategoryDisplayName cs.1 cs.2)
             (slotEntry env root lang cs.1 cs.2 [])) := by
  have hB' : slotBothExist { env with parseResults := pf } root lang cs = true := hB
  have hrun' : run_semgrep_on_example { env with parseResults := pf } lang
      (find_path { env with parseResults := pf } root lang cs.1 cs.2 "sgrep")
      (find_path { env with parseResults := pf } root lang cs.1 cs.2 (lang_dir_to_ext lang)) =
      .ok "" := hrun
  unfold processSlot slotHighlights
  rw [show (cs.1, cs.2) = cs from rfl, hB', hrun']
  by_cases hex : language_exception lang cs.1 cs.2 = true
  · simp only [hex, if_true]
  · simp only [Bool.not_eq_true] at hex
    simp only [hex, Bool.false_eq_true, if_false]
    rfl

/-- C10: when the matcher exits with status 0 and empty stdout for a slot
whose two files exist, the adapter returns the empty output, the loop
body succeeds without consulting the JSON parser at all (any parser gives
the same result), and the entry's highlights are empty. -/
theorem c10_empty_output_zero_matches (env : Env) (root lang category subcategory : String)
    (stderrText : String)
    (hB : slotBothExist env root lang (category, subcategory) = true)
    (hsg : env.semgrep (env.configToString (single_pattern_to_dict
        (env.fsContent (find_path env root lang category subcategory "sgrep")) lang))
        (find_path env root lang category subcategory (lang_dir_to_ext lang)) =
      { returncode := 0, stdout := "", stderr := stderrText }) :
    run_semgrep_on_example env lang (find_path env root lang category subcategory "sgrep")
        (find_path env root lang category subcategory (lang_dir_to_ext lang)) = .ok "" ∧
    ∀ (pf : String → Option (List Highlight)) (d : Doc),
      processSlot { env with parseResults := pf } root lang (category, subcategory) d =
        .ok (if language_exception lang category subcategory then d
             else appendEntry d lang (verboseFeatureName category)
               (subcategoryDisplayName category subcategory)
               (slotEntry env root lang category subcategory [])) := by
  have hrun : run_semgrep_on_example env lang (find_path env root lang category subcategory "sgrep")
      (find_path env root lang category subcategory (lang_dir_to_ext lang)) = .ok "" := by
    simp [run_semgrep_on_example, hsg]
  refine ⟨hrun, ?_⟩
  intro pf d
  exact processSlot_empty_output env root lang (category, subcategory) pf d hB hrun

/-- Witness for C10: with the python dots_args files present and a
matcher printing nothing on a zero exit status, the loop body succeeds
under a parser that rejects everything, and the inserted entry has empty
highlights. -/
theorem c10_empty_output_witness :
    processSlot { envPyEmptyOut with parseResults := fun _ => none } "root" "python" ("dots", "args") [] =
      .ok (appendEntry [] "python" "Wildcard Matches (...)" "Arguments"
        (slotEntry envPyEmptyOut "root" "python" "dots" "args" [])) := by
  have h := (c10_empty_output_zero_matches envPyEmptyOut "root" "python" "dots" "args" ""
    (by decide) (by decide)).2 (fun _ => none) []
  rw [h]
  simp only [show language_exception "python" "dots" "args" = false from by decide,
    Bool.false_eq_true, if_false]
  rfl
